import Mathlib

/-!
Shallow embedding of `queryhook.go` from the zapbun repository: a zap
logging hook for the Bun ORM.  The hook intercepts query events and
emits at most one log record per event.  Times and durations are
modelled as `Int` nanosecond counts (Go `time.Duration` / `time.Time`
differences), severity levels as a closed enumeration mirroring
`zapcore.Level`, and Go `error` interface values as `Option GoErr`,
where the two `database/sql` sentinel errors are distinguished
constructors (the Go code compares them by interface identity in a
`switch`).
-/

namespace Zapbun

/-- Severity levels of `zapcore.Level` (an ordered enumeration). -/
inductive Level where
  | DebugLevel
  | InfoLevel
  | WarnLevel
  | ErrorLevel
  | DPanicLevel
  | PanicLevel
  | FatalLevel
  deriving DecidableEq, Repr

/-- A Go `error` value as seen by the hook: either one of the two
`database/sql` sentinel errors (compared by identity in the `switch` of
`AfterQuery`) or any other error, carrying its message. -/
inductive GoErr where
  | errNoRows
  | errTxDone
  | other (msg : String)
  deriving DecidableEq, Repr

/-- `err.Error()` / the `%s` rendering of a Go error value. -/
def goErrString : GoErr → String
  | GoErr.errNoRows => "sql: no rows in result set"
  | GoErr.errTxDone => "sql: transaction has already been committed or rolled back"
  | GoErr.other msg => msg

/-- The payload of a `zap.Field` as used by the hook: either a
`zapcore.StringerType` holding a rounded `time.Duration`, or a
`zapcore.ErrorType` holding an error value. -/
inductive FieldValue where
  | stringer (d : Int)
  | errv (e : GoErr)
  deriving DecidableEq, Repr

/-- A `zap.Field`: a key together with a typed payload. -/
structure Field where
  key : String
  value : FieldValue
  deriving DecidableEq, Repr

/-- One call into the log sink: `logger.Log(level, message, fields...)`. -/
structure LogRecord where
  level : Level
  message : String
  fields : List Field
  deriving DecidableEq, Repr

/-- The `QueryHook` configuration struct (the `*zap.Logger` sink pointer
is omitted: emission is modelled by the `Option LogRecord` result of
`AfterQuery`). -/
structure QueryHook where
  errorFieldName : String
  precision : Int
  enabled : Bool
  verbose : Bool
  durationAsField : Bool
  errorAsField : Bool
  duration : Bool
  queryLevel : Level
  errorLevel : Level
  deriving DecidableEq, Repr

/-- A `bun.QueryEvent` restricted to the parts the hook reads: query
text, start timestamp (nanoseconds), and the resulting error. -/
structure QueryEvent where
  query : String
  startTime : Int
  err : Option GoErr
  deriving DecidableEq, Repr

/-- Go `time.Nanosecond`. -/
def Nanosecond : Int := 1

/-- Go `time.Microsecond`. -/
def Microsecond : Int := 1000

/-- Go `time.Millisecond`. -/
def Millisecond : Int := 1000000

/-- Go `time.Second`. -/
def Second : Int := 1000000000

/-- Smallest `int64` value (Go `minDuration`). -/
def i64min : Int := -(2 ^ 63)

/-- Largest `int64` value (Go `maxDuration`). -/
def i64max : Int := 2 ^ 63 - 1

/-- Two's-complement wrap-around of an `Int` into the `int64` range. -/
def wrap64 (x : Int) : Int := (x + 2 ^ 63) % 2 ^ 64 - 2 ^ 63

/-- Go `time.Duration.Round`: round `d` to the nearest multiple of `m`,
half away from zero; `m ≤ 0` returns `d` unchanged; overflow saturates
to `minDuration` / `maxDuration`.  Go's `%` is truncated remainder
(`Int.tmod`), and `lessThanHalf(r, m)` is `r+r < m` since both operands
are non-negative and below `2^63` at its call sites. -/
def durRound (d m : Int) : Int :=
  if m ≤ 0 then d
  else
    let r := Int.tmod d m
    if d < 0 then
      let r2 := -r
      if r2 + r2 < m then d + r2
      else
        let d1 := wrap64 (wrap64 (d - m) + r2)
        if d1 < d then d1 else i64min
    else
      if r + r < m then d - r
      else
        let d1 := wrap64 (wrap64 (d + m) - r)
        if d1 > d then d1 else i64max

/-- Go `time.Time.Sub` on nanosecond timestamps: the difference, clamped
to the `int64` (`time.Duration`) range. -/
def timeSub (t u : Int) : Int :=
  let d := t - u
  if d < i64min then i64min else if d > i64max then i64max else d

/-- The loop of Go's `fmtFrac`: peel `prec` decimal digits off `v`,
printing them (right to left) once a non-zero digit has been seen, and
finally the decimal point if anything was printed.  Returns the printed
tail, the remaining value, and whether anything was printed. -/
def fmtFracAux : Nat → Nat → Bool → String → String × Nat × Bool
  | v, 0, pr, acc => ((if pr then "." ++ acc else acc), v, pr)
  | v, i + 1, pr, acc =>
    let digit := v % 10
    let pr2 := pr || decide (digit ≠ 0)
    let acc2 := if pr2 then toString digit ++ acc else acc
    fmtFracAux (v / 10) i pr2 acc2

/-- Go `fmtFrac`: the fraction `v / 10^prec` rendered as e.g. ".12345"
with trailing zeros (and a then-pointless decimal point) omitted,
together with `v / 10^prec`. -/
def fmtFrac (v : Nat) (prec : Nat) : String × Nat :=
  let r := fmtFracAux v prec false ""
  (r.1, r.2.1)

/-- Go `time.Duration.String`: "1.5ms", "72ns", "1m30.5s", ... -/
def durationString (d : Int) : String :=
  let neg := d < 0
  let u := d.natAbs
  let body :=
    if u < 1000000000 then
      if u == 0 then "0s"
      else
        let p :=
          if u < 1000 then ("ns", 0)
          else if u < 1000000 then ("µs", 3)
          else ("ms", 6)
        let f := fmtFrac u p.2
        toString f.2 ++ f.1 ++ p.1
    else
      let f := fmtFrac u 9
      let secPart := toString (f.2 % 60) ++ f.1 ++ "s"
      let v := f.2 / 60
      if v > 0 then
        let minPart := toString (v % 60) ++ "m"
        let v2 := v / 60
        if v2 > 0 then toString v2 ++ "h" ++ minPart ++ secPart
        else minPart ++ secPart
      else secPart
  if neg then "-" ++ body else body

/-- The functional option type (`type Option func(*QueryHook)` in the
source; renamed to avoid clashing with Lean's `Option`). -/
def HookOption : Type := QueryHook → QueryHook

/-- `WithEnabled` enables/disables the hook. -/
def WithEnabled (b : Bool) : HookOption := fun h => { h with enabled := b }

/-- `WithVerbose` configures the hook to log all queries. -/
def WithVerbose (b : Bool) : HookOption := fun h => { h with verbose := b }

/-- `WithDurationAsField` sets both `duration` and `durationAsField`. -/
def WithDurationAsField : HookOption :=
  fun h => { h with duration := true, durationAsField := true }

set_option linter.unusedVariables false in
/-- `WithDurationPrecision`, exactly as the source has it: the
`precision` argument is ignored and `durationAsField` is set instead. -/
def WithDurationPrecision (precision : Int) : HookOption :=
  fun h => { h with durationAsField := true }

/-- `WithErrorAsField` sets `errorAsField` and the field name. -/
def WithErrorAsField (field : String) : HookOption :=
  fun h => { h with errorAsField := true, errorFieldName := field }

/-- `WithLevels` overrides both severity levels. -/
def WithLevels (queryLevel errorLevel : Level) : HookOption :=
  fun h => { h with queryLevel := queryLevel, errorLevel := errorLevel }

/-- `WithDuration` enables duration logging (message mode by default). -/
def WithDuration : HookOption := fun h => { h with duration := true }

/-- The defaults installed by `NewQueryHook` before options run. -/
def defaultHook : QueryHook where
  errorFieldName := "error"
  precision := Millisecond
  enabled := true
  verbose := false
  durationAsField := false
  errorAsField := false
  duration := false
  queryLevel := Level.DebugLevel
  errorLevel := Level.ErrorLevel

/-- `NewQueryHook`: defaults, then each option applied in order. -/
def NewQueryHook (opts : List HookOption) : QueryHook :=
  opts.foldl (fun h opt => opt h) defaultHook

/-- The `case nil, sql.ErrNoRows, sql.ErrTxDone` arm of the `switch` in
`AfterQuery`: true exactly when the event error matches one of the three
listed values by identity. -/
def isBenign : Option GoErr → Bool
  | none => true
  | some GoErr.errNoRows => true
  | some GoErr.errTxDone => true
  | some (GoErr.other _) => false

/-- `AfterQuery`: the post-execution hook.  `now` is the value of
`time.Now()` in nanoseconds.  The result pairs the hook state after the
call (the method receives a pointer, so mutation would be visible) with
the at-most-one log record handed to the sink. -/
def AfterQuery (h : QueryHook) (event : QueryEvent) (now : Int) :
    QueryHook × Option LogRecord :=
  if !h.enabled then (h, none)
  else
    let benign := isBenign event.err
    if benign && !h.verbose then (h, none)
    else
      let level := if benign then h.queryLevel else h.errorLevel
      let err : Option GoErr := if benign then none else event.err
      let dur := timeSub now event.startTime
      let message := event.query
      let fields : List Field := []
      let md :=
        if h.duration && h.durationAsField then
          (message,
            fields ++ [Field.mk "duration"
              (FieldValue.stringer (durRound dur h.precision))])
        else if h.duration then
          ("duration: " ++ durationString (durRound dur h.precision)
             ++ " " ++ message, fields)
        else (message, fields)
      let mf :=
        match err with
        | some e =>
          if h.errorAsField then
            (md.1, md.2 ++ [Field.mk h.errorFieldName (FieldValue.errv e)])
          else (md.1 ++ " error: " ++ goErrString e, md.2)
        | none => md
      (h, some (LogRecord.mk level mf.1 mf.2))

/-! ## Theorems about the claims -/

/-- C2: with `enabled = false`, `AfterQuery` emits no log record and
changes nothing, for every event, every `now`, and regardless of every
other configuration field (in particular `verbose`): the disabled check
is the first gate. -/
theorem afterQuery_disabled (h : QueryHook) (event : QueryEvent) (now : Int)
    (hdis : h.enabled = false) : AfterQuery h event now = (h, none) := by
  simp [AfterQuery, hdis]

/-- Witness for `afterQuery_disabled` at a concrete disabled hook and a
failing event. -/
theorem afterQuery_disabled_witness :
    (NewQueryHook [WithEnabled false]).enabled = false ∧
    AfterQuery (NewQueryHook [WithEnabled false])
        (QueryEvent.mk "SELECT * FROM nop" 0 (some (GoErr.other "boom"))) 5 =
      (NewQueryHook [WithEnabled false], none) :=
  ⟨rfl, afterQuery_disabled (NewQueryHook [WithEnabled false])
    (QueryEvent.mk "SELECT * FROM nop" 0 (some (GoErr.other "boom"))) 5 rfl⟩

/-- C10: `AfterQuery` never mutates the hook's configuration: the hook
state it returns is the one it was given, and repeating the call on the
returned state with the identical event and time yields the identical
result. -/
theorem afterQuery_no_mutation (h : QueryHook) (event : QueryEvent) (now : Int) :
    (AfterQuery h event now).1 = h ∧
    AfterQuery (AfterQuery h event now).1 event now = AfterQuery h event now := by
  have h1 : (AfterQuery h event now).1 = h := by
    unfold AfterQuery
    split
    · rfl
    · dsimp only
      split
      · rfl
      · rfl
  exact ⟨h1, by rw [h1]⟩

/-- C5 is a code bug: `WithDurationPrecision` ignores its precision
argument (setting `durationAsField` instead), so the hook built with
`WithDuration` and `WithDurationPrecision Microsecond` still has the
default millisecond precision, and an elapsed time of 1500µs is rounded
to 2ms (2000000ns) rather than kept at microsecond granularity. -/
theorem withDurationPrecision_ignores_argument :
    (NewQueryHook [WithDuration, WithDurationPrecision Microsecond]).precision
        = Millisecond ∧
    (AfterQuery (NewQueryHook [WithDuration, WithDurationPrecision Microsecond])
        (QueryEvent.mk "SELECT 1" 0 (some (GoErr.other "boom"))) 1500000).2 =
      some (LogRecord.mk Level.ErrorLevel "SELECT 1 error: boom"
        [Field.mk "duration" (FieldValue.stringer 2000000)]) :=
  ⟨rfl, by decide⟩

/-- C6 is a code bug: adding `WithDurationPrecision` to an option list
is not a pure precision change — it flips `durationAsField` (while
leaving `precision` untouched), moving the duration of an otherwise
message-mode hook out of the message and into a structured field. -/
theorem withDurationPrecision_changes_mode :
    (NewQueryHook [WithDuration]).durationAsField = false ∧
    (NewQueryHook [WithDuration, WithDurationPrecision Millisecond]).durationAsField
        = true ∧
    (NewQueryHook [WithDuration, WithDurationPrecision Millisecond]).precision
        = (NewQueryHook [WithDuration]).precision ∧
    (AfterQuery (NewQueryHook [WithDuration])
        (QueryEvent.mk "SELECT 1" 0 (some (GoErr.other "boom"))) 1500000).2 =
      some (LogRecord.mk Level.ErrorLevel "duration: 2ms SELECT 1 error: boom" []) ∧
    (AfterQuery (NewQueryHook [WithDuration, WithDurationPrecision Millisecond])
        (QueryEvent.mk "SELECT 1" 0 (some (GoErr.other "boom"))) 1500000).2 =
      some (LogRecord.mk Level.ErrorLevel "SELECT 1 error: boom"
        [Field.mk "duration" (FieldValue.stringer 2000000)]) :=
  ⟨rfl, rfl, rfl, by decide, by decide⟩

/-- C1: when the hook is enabled and the event's error is a genuine
error (non-nil and not one of the two benign sentinels), `AfterQuery`
emits exactly one record, at the configured error level, carrying the
error value — as the named error field in error-as-field mode, as a
message suffix otherwise — regardless of the verbose setting. -/
theorem afterQuery_genuine_error (h : QueryHook) (event : QueryEvent)
    (now : Int) (e : GoErr)
    (hen : h.enabled = true) (herr : event.err = some e)
    (hgen : isBenign event.err = false) :
    ∃ r : LogRecord, (AfterQuery h event now).2 = some r ∧
      r.level = h.errorLevel ∧
      (h.errorAsField = true →
        Field.mk h.errorFieldName (FieldValue.errv e) ∈ r.fields) ∧
      (h.errorAsField = false →
        ∃ p, r.message = p ++ " error: " ++ goErrString e) := by
  obtain ⟨q, st, eo⟩ := event
  obtain ⟨efn, prec, en, vb, daf, eaf, dur, ql, el⟩ := h
  dsimp only at hen herr hgen ⊢
  subst hen
  subst herr
  cases e with
  | errNoRows => simp [isBenign] at hgen
  | errTxDone => simp [isBenign] at hgen
  | other msg =>
    cases eaf <;> cases dur <;> cases daf <;>
      refine ⟨_, rfl, rfl, fun hf => ?_, fun hf => ?_⟩ <;>
      first
      | (exfalso; simp at hf; done)
      | exact ⟨_, rfl⟩
      | simp [isBenign]

/-- C3: with the hook enabled and a non-error or benign-sentinel
outcome: if `verbose = false` no record is emitted; if `verbose = true`
exactly one record is emitted, at the configured normal-query level,
with no error value among its fields and a message that is the query
text, at most duration-prefixed — never error-suffixed. -/
theorem afterQuery_benign_outcome (h : QueryHook) (event : QueryEvent)
    (now : Int) (hen : h.enabled = true) (hb : isBenign event.err = true) :
    (h.verbose = false → (AfterQuery h event now).2 = none) ∧
    (h.verbose = true → ∃ r : LogRecord,
      (AfterQuery h event now).2 = some r ∧
      r.level = h.queryLevel ∧
      (∀ f ∈ r.fields, ∀ e, f.value ≠ FieldValue.errv e) ∧
      (r.message = event.query ∨
        r.message = "duration: "
          ++ durationString (durRound (timeSub now event.startTime) h.precision)
          ++ " " ++ event.query)) := by
  obtain ⟨q, st, eo⟩ := event
  obtain ⟨efn, prec, en, vb, daf, eaf, dur, ql, el⟩ := h
  dsimp only at hen hb ⊢
  subst hen
  rcases eo with _ | (_ | _ | m)
  all_goals try (exfalso; simp [isBenign] at hb; done)
  all_goals
    refine ⟨fun hvf => ?_, fun hvt => ?_⟩ <;> [subst hvf; subst hvt] <;>
    first
    | rfl
    | (cases dur <;> cases daf <;>
        refine ⟨_, rfl, rfl, ?_, ?_⟩ <;> simp [isBenign])

/-- C4: a benign sentinel error is handled exactly as a no-error
outcome: `AfterQuery` returns the very same result as for the same
event with no error at all, and any record it emits is at the
normal-query level with no error value among its fields. -/
theorem afterQuery_sentinel_like_success (h : QueryHook) (q : String)
    (st now : Int) (e : GoErr)
    (hsent : e = GoErr.errNoRows ∨ e = GoErr.errTxDone) :
    AfterQuery h (QueryEvent.mk q st (some e)) now
        = AfterQuery h (QueryEvent.mk q st none) now ∧
    ∀ r : LogRecord,
      (AfterQuery h (QueryEvent.mk q st (some e)) now).2 = some r →
        r.level = h.queryLevel ∧
        ∀ f ∈ r.fields, ∀ e2, f.value ≠ FieldValue.errv e2 := by
  obtain ⟨efn, prec, en, vb, daf, eaf, dur, ql, el⟩ := h
  rcases hsent with rfl | rfl <;>
    (refine ⟨by cases en <;> rfl, fun r hr => ?_⟩
     cases en
     case false => exfalso; simp [AfterQuery] at hr
     case true =>
       cases vb
       case false => exfalso; simp [AfterQuery, isBenign] at hr
       case true =>
         cases dur <;> cases daf <;>
           (have h2 := Option.some.inj hr
            subst h2
            exact ⟨rfl, by simp [isBenign]⟩))

/-- C7: whenever an emitted record contains both a duration field and an
error field, its field list is exactly the duration field followed by
the error field (under the configured error field name), in that order,
with no other fields. -/
theorem afterQuery_fields_order (h : QueryHook) (event : QueryEvent)
    (now : Int) (r : LogRecord)
    (hr : (AfterQuery h event now).2 = some r)
    (hdur : ∃ d, Field.mk "duration" (FieldValue.stringer d) ∈ r.fields)
    (herr2 : ∃ k e, Field.mk k (FieldValue.errv e) ∈ r.fields) :
    ∃ d e, r.fields =
      [Field.mk "duration" (FieldValue.stringer d),
       Field.mk h.errorFieldName (FieldValue.errv e)] := by
  obtain ⟨q, st, eo⟩ := event
  obtain ⟨efn, prec, en, vb, daf, eaf, dur, ql, el⟩ := h
  obtain ⟨d0, hd0⟩ := hdur
  obtain ⟨k0, e0, he0⟩ := herr2
  cases en
  case false => exfalso; simp [AfterQuery] at hr
  case true =>
    rcases eo with _ | (_ | _ | m) <;>
      cases vb <;> cases dur <;> cases daf <;> cases eaf <;>
      first
      | (exfalso; simp [AfterQuery, isBenign] at hr; done)
      | (have h2 := Option.some.inj hr
         subst h2
         exfalso
         simp [isBenign] at hd0 he0
         done)
      | (have h2 := Option.some.inj hr
         subst h2
         exact ⟨_, _, rfl⟩)

/-- The effective error of the spec's step 2: the event's error unless
it is absent or one of the two benign sentinels. -/
def effectiveErr (event : QueryEvent) : Option GoErr :=
  if isBenign event.err then none else event.err

/-- Modelled from the spec's §4.1 wording (steps 4 and 5): the message
starts from the raw query text; when duration logging is on in message
mode (and not field mode) the text "duration: <rounded-duration> " is
prepended; when an effective error is present and error-as-field mode
is off, the text " error: <error string>" is appended; otherwise the
query text is unchanged. -/
def specMessage (h : QueryHook) (event : QueryEvent) (now : Int) : String :=
  let base :=
    if h.duration && !h.durationAsField then
      "duration: "
        ++ durationString (durRound (timeSub now event.startTime) h.precision)
        ++ " " ++ event.query
    else event.query
  match effectiveErr event with
  | some e =>
    if h.errorAsField then base else base ++ " error: " ++ goErrString e
  | none => base

/-- C8: every emitted record's message is exactly the message the spec
describes: the raw query text, duration-prefixed in message mode,
error-suffixed when an effective error is present and error-as-field
mode is off, and otherwise unchanged. -/
theorem afterQuery_message_spec (h : QueryHook) (event : QueryEvent)
    (now : Int) (r : LogRecord)
    (hr : (AfterQuery h event now).2 = some r) :
    r.message = specMessage h event now := by
  obtain ⟨q, st, eo⟩ := event
  obtain ⟨efn, prec, en, vb, daf, eaf, dur, ql, el⟩ := h
  cases en
  case false => exfalso; simp [AfterQuery] at hr
  case true =>
    rcases eo with _ | (_ | _ | m) <;>
      cases vb <;> cases dur <;> cases daf <;> cases eaf <;>
      first
      | (exfalso; simp [AfterQuery, isBenign] at hr; done)
      | (have h2 := Option.some.inj hr
         subst h2
         rfl)

/-- C9: a hook built with only the `WithDurationPrecision` option has
the field-mode flag set but the duration-enable flag unset, and its
`AfterQuery` includes no duration at all: no duration field, and the
message is the query text with at most an error suffix — never a
duration prefix. -/
theorem durationPrecision_alone_no_duration (p : Int) (event : QueryEvent)
    (now : Int) (r : LogRecord)
    (hr : (AfterQuery (NewQueryHook [WithDurationPrecision p]) event now).2
        = some r) :
    (NewQueryHook [WithDurationPrecision p]).durationAsField = true ∧
    (NewQueryHook [WithDurationPrecision p]).duration = false ∧
    (∀ f ∈ r.fields, ∀ d, f.value ≠ FieldValue.stringer d) ∧
    (r.message = event.query ∨
      ∃ e, r.message = event.query ++ " error: " ++ goErrString e) := by
  obtain ⟨q, st, eo⟩ := event
  rcases eo with _ | (_ | _ | m)
  all_goals
    try (exfalso
         simp [NewQueryHook, defaultHook, WithDurationPrecision, AfterQuery,
           isBenign] at hr
         done)
  have h2 := Option.some.inj hr
  subst h2
  exact ⟨rfl, rfl,
    by simp [NewQueryHook, WithDurationPrecision, defaultHook, isBenign],
    Or.inr ⟨GoErr.other m, rfl⟩⟩

/-- Witness for `afterQuery_genuine_error` at the default hook, a
genuine error, and a concrete time. -/
theorem afterQuery_genuine_error_witness :
    defaultHook.enabled = true ∧
    (QueryEvent.mk "SELECT * FROM nop" 0 (some (GoErr.other "boom"))).err
        = some (GoErr.other "boom") ∧
    isBenign (QueryEvent.mk "SELECT * FROM nop" 0
        (some (GoErr.other "boom"))).err = false ∧
    (∃ r : LogRecord,
      (AfterQuery defaultHook
        (QueryEvent.mk "SELECT * FROM nop" 0 (some (GoErr.other "boom")))
        5).2 = some r ∧
      r.level = defaultHook.errorLevel ∧
      (defaultHook.errorAsField = true →
        Field.mk defaultHook.errorFieldName
          (FieldValue.errv (GoErr.other "boom")) ∈ r.fields) ∧
      (defaultHook.errorAsField = false →
        ∃ p, r.message = p ++ " error: " ++ goErrString (GoErr.other "boom"))) :=
  ⟨rfl, rfl, rfl,
    afterQuery_genuine_error defaultHook
      (QueryEvent.mk "SELECT * FROM nop" 0 (some (GoErr.other "boom")))
      5 (GoErr.other "boom") rfl rfl rfl⟩

/-- Witness for `afterQuery_benign_outcome` at a verbose hook, a
no-error event, and a concrete time. -/
theorem afterQuery_benign_outcome_witness :
    (NewQueryHook [WithVerbose true]).enabled = true ∧
    isBenign (QueryEvent.mk "SELECT 1" 0 none).err = true ∧
    (((NewQueryHook [WithVerbose true]).verbose = false →
        (AfterQuery (NewQueryHook [WithVerbose true])
          (QueryEvent.mk "SELECT 1" 0 none) 5).2 = none) ∧
     ((NewQueryHook [WithVerbose true]).verbose = true →
        ∃ r : LogRecord,
          (AfterQuery (NewQueryHook [WithVerbose true])
            (QueryEvent.mk "SELECT 1" 0 none) 5).2 = some r ∧
          r.level = (NewQueryHook [WithVerbose true]).queryLevel ∧
          (∀ f ∈ r.fields, ∀ e, f.value ≠ FieldValue.errv e) ∧
          (r.message = (QueryEvent.mk "SELECT 1" 0 none).query ∨
            r.message = "duration: "
              ++ durationString (durRound
                   (timeSub 5 (QueryEvent.mk "SELECT 1" 0 none).startTime)
                   (NewQueryHook [WithVerbose true]).precision)
              ++ " " ++ (QueryEvent.mk "SELECT 1" 0 none).query))) :=
  ⟨rfl, rfl,
    afterQuery_benign_outcome (NewQueryHook [WithVerbose true])
      (QueryEvent.mk "SELECT 1" 0 none) 5 rfl rfl⟩

/-- Witness for `afterQuery_sentinel_like_success` at a verbose hook and
the no-rows sentinel. -/
theorem afterQuery_sentinel_like_success_witness :
    (GoErr.errNoRows = GoErr.errNoRows ∨ GoErr.errNoRows = GoErr.errTxDone) ∧
    (AfterQuery (NewQueryHook [WithVerbose true])
        (QueryEvent.mk "SELECT 1" 0 (some GoErr.errNoRows)) 5
      = AfterQuery (NewQueryHook [WithVerbose true])
        (QueryEvent.mk "SELECT 1" 0 none) 5 ∧
     ∀ r : LogRecord,
      (AfterQuery (NewQueryHook [WithVerbose true])
        (QueryEvent.mk "SELECT 1" 0 (some GoErr.errNoRows)) 5).2 = some r →
        r.level = (NewQueryHook [WithVerbose true]).queryLevel ∧
        ∀ f ∈ r.fields, ∀ e2, f.value ≠ FieldValue.errv e2) :=
  ⟨Or.inl rfl,
    afterQuery_sentinel_like_success (NewQueryHook [WithVerbose true])
      "SELECT 1" 0 5 GoErr.errNoRows (Or.inl rfl)⟩

/-- Witness for `afterQuery_fields_order` at a hook with both
duration-as-field and error-as-field enabled and a failing query. -/
theorem afterQuery_fields_order_witness :
    (AfterQuery (NewQueryHook [WithDurationAsField, WithErrorAsField "err"])
        (QueryEvent.mk "SELECT 1" 0 (some (GoErr.other "boom"))) 1500000).2
      = some (LogRecord.mk Level.ErrorLevel "SELECT 1"
          [Field.mk "duration" (FieldValue.stringer 2000000),
           Field.mk "err" (FieldValue.errv (GoErr.other "boom"))]) ∧
    (∃ d, Field.mk "duration" (FieldValue.stringer d) ∈
      (LogRecord.mk Level.ErrorLevel "SELECT 1"
          [Field.mk "duration" (FieldValue.stringer 2000000),
           Field.mk "err" (FieldValue.errv (GoErr.other "boom"))]).fields) ∧
    (∃ k e, Field.mk k (FieldValue.errv e) ∈
      (LogRecord.mk Level.ErrorLevel "SELECT 1"
          [Field.mk "duration" (FieldValue.stringer 2000000),
           Field.mk "err" (FieldValue.errv (GoErr.other "boom"))]).fields) ∧
    (∃ d e,
      (LogRecord.mk Level.ErrorLevel "SELECT 1"
          [Field.mk "duration" (FieldValue.stringer 2000000),
           Field.mk "err" (FieldValue.errv (GoErr.other "boom"))]).fields =
        [Field.mk "duration" (FieldValue.stringer d),
         Field.mk (NewQueryHook
             [WithDurationAsField, WithErrorAsField "err"]).errorFieldName
           (FieldValue.errv e)]) :=
  ⟨by decide, ⟨2000000, by decide⟩, ⟨"err", GoErr.other "boom", by decide⟩,
    afterQuery_fields_order
      (NewQueryHook [WithDurationAsField, WithErrorAsField "err"])
      (QueryEvent.mk "SELECT 1" 0 (some (GoErr.other "boom"))) 1500000
      (LogRecord.mk Level.ErrorLevel "SELECT 1"
          [Field.mk "duration" (FieldValue.stringer 2000000),
           Field.mk "err" (FieldValue.errv (GoErr.other "boom"))])
      (by decide) ⟨2000000, by decide⟩ ⟨"err", GoErr.other "boom", by decide⟩⟩

/-- Witness for `afterQuery_message_spec` at a duration-in-message hook
and a failing query with 1.5ms elapsed. -/
theorem afterQuery_message_spec_witness :
    (AfterQuery (NewQueryHook [WithDuration])
        (QueryEvent.mk "SELECT 1" 0 (some (GoErr.other "boom"))) 1500000).2
      = some (LogRecord.mk Level.ErrorLevel
          "duration: 2ms SELECT 1 error: boom" []) ∧
    (LogRecord.mk Level.ErrorLevel
        "duration: 2ms SELECT 1 error: boom" []).message
      = specMessage (NewQueryHook [WithDuration])
          (QueryEvent.mk "SELECT 1" 0 (some (GoErr.other "boom"))) 1500000 :=
  ⟨by decide,
    afterQuery_message_spec (NewQueryHook [WithDuration])
      (QueryEvent.mk "SELECT 1" 0 (some (GoErr.other "boom"))) 1500000
      (LogRecord.mk Level.ErrorLevel "duration: 2ms SELECT 1 error: boom" [])
      (by decide)⟩

/-- Witness for `durationPrecision_alone_no_duration` at a concrete
precision, event and time. -/
theorem durationPrecision_alone_no_duration_witness :
    (AfterQuery (NewQueryHook [WithDurationPrecision Microsecond])
        (QueryEvent.mk "SELECT 1" 0 (some (GoErr.other "boom"))) 1500000).2
      = some (LogRecord.mk Level.ErrorLevel "SELECT 1 error: boom" []) ∧
    ((NewQueryHook [WithDurationPrecision Microsecond]).durationAsField
        = true ∧
     (NewQueryHook [WithDurationPrecision Microsecond]).duration = false ∧
     (∀ f ∈ (LogRecord.mk Level.ErrorLevel "SELECT 1 error: boom" []).fields,
        ∀ d, f.value ≠ FieldValue.stringer d) ∧
     ((LogRecord.mk Level.ErrorLevel "SELECT 1 error: boom" []).message
        = (QueryEvent.mk "SELECT 1" 0 (some (GoErr.other "boom"))).query ∨
      ∃ e, (LogRecord.mk Level.ErrorLevel "SELECT 1 error: boom" []).message
        = (QueryEvent.mk "SELECT 1" 0 (some (GoErr.other "boom"))).query
            ++ " error: " ++ goErrString e)) :=
  ⟨by decide,
    durationPrecision_alone_no_duration Microsecond
      (QueryEvent.mk "SELECT 1" 0 (some (GoErr.other "boom"))) 1500000
      (LogRecord.mk Level.ErrorLevel "SELECT 1 error: boom" [])
      (by decide)⟩

end Zapbun
